import Mathlib

set_option maxRecDepth 10000
set_option maxHeartbeats 1000000

/-!
Verification of the buffer-decoding and valuation core of the
port-anchor-adaptor crate (`src/lib.rs`, module `port_accessor`, and
`PortObligation::calculate_liquidity`), against its natural-language
specification.

The embedding models:
* the fixed-point math of the `solana_maths` and
  `port_variable_rate_lending_instructions::math` crates (both forks of the
  spl-token-lending math: a `Decimal` is a 192-bit unsigned integer scaled by
  `WAD = 10^18`, a `Rate` is a 128-bit unsigned integer scaled by `WAD`, all
  fallible operations return an error instead of wrapping);
* Solana account buffers (`AccountInfo`) as a byte list plus a flag saying
  whether `try_borrow_data` can take the borrow;
* Rust slice indexing `bytes[a..b]`, which panics when the range is out of
  bounds.  A panic aborts the call abnormally: it is modelled by the
  distinguished outcome `PErr.crash`, which is not one of the `ProgramError`
  values the accessors return.

The `msg!` log calls of the source are pure logging and are omitted.
-/

namespace PortAdaptor

/-- Error outcomes of the adaptor's fallible operations.  `borrowFailed`
models the `AccountBorrowFailed` program error of `try_borrow_data`;
`mathOverflow` models the `MathOverflow` error of the two math crates (used by
them for additions/subtractions out of range, divisions by zero and failed
narrowing conversions alike); `insolvency`, `collateralIndexOutOfBound` and
`borrowIndexOutOfBound` are the three `PortAdaptorError` variants of
`error.rs`.  `crash` models a Rust panic (out-of-range slice indexing): an
abnormal abort, not an error value returned to the caller. -/
inductive PErr where
  | borrowFailed
  | crash
  | mathOverflow
  | insolvency
  | collateralIndexOutOfBound
  | borrowIndexOutOfBound
deriving DecidableEq

/-- Whether an outcome is an error value returned to the caller (a
`ProgramError`), as opposed to the `crash` outcome modelling a Rust panic. -/
def PErr.isReturnedError : PErr → Bool
  | .crash => false
  | _ => true

instance exceptDecidableEq {ε : Type} {α : Type} [DecidableEq ε] [DecidableEq α] :
    DecidableEq (Except ε α) := fun x y =>
  match x, y with
  | .ok a, .ok b =>
    if h : a = b then .isTrue (by rw [h]) else .isFalse (fun hh => h (Except.ok.inj hh))
  | .error a, .error b =>
    if h : a = b then .isTrue (by rw [h]) else .isFalse (fun hh => h (Except.error.inj hh))
  | .ok _, .error _ => .isFalse (fun hh => Except.noConfusion hh)
  | .error _, .ok _ => .isFalse (fun hh => Except.noConfusion hh)

/-- The fixed-point scale shared by both math crates: `WAD = 10^18`. -/
def WAD : Nat := 10 ^ 18

/-- Unsigned fixed-point decimal scaled by `WAD`, stored in a 192-bit integer
(`solana_maths::Decimal` and the identical
`port_variable_rate_lending_instructions::math::Decimal`).  `val` is the
scaled value; every operation below checks the `U192` range explicitly, as the
Rust `checked_*` calls do. -/
structure Decimal where
  val : Nat
deriving DecidableEq

/-- Decimal::zero(). -/
def Decimal.zero : Decimal := ⟨0⟩

/-- Decimal::from(v: u64): scales the integer by `WAD`. -/
def Decimal.from_u64 (v : Nat) : Decimal := ⟨v * WAD⟩

/-- Decimal::from_scaled_val(v: u128). -/
def Decimal.from_scaled_val (v : Nat) : Decimal := ⟨v⟩

/-- Decimal::try_add: checked 192-bit addition, `MathOverflow` on overflow. -/
def Decimal.try_add (a b : Decimal) : Except PErr Decimal :=
  if a.val + b.val < 2 ^ 192 then .ok ⟨a.val + b.val⟩ else .error .mathOverflow

/-- Decimal::try_sub: checked subtraction, `MathOverflow` when the result
would be negative. -/
def Decimal.try_sub (a b : Decimal) : Except PErr Decimal :=
  if b.val ≤ a.val then .ok ⟨a.val - b.val⟩ else .error .mathOverflow

/-- Decimal::try_div by another Decimal:
`self.0.checked_mul(WAD)?.checked_div(rhs.0)?`, so `MathOverflow` when
`a.val * WAD` overflows `U192` or when the divisor is zero, and otherwise the
floored quotient. -/
def Decimal.try_div (a b : Decimal) : Except PErr Decimal :=
  if 2 ^ 192 ≤ a.val * WAD then .error .mathOverflow
  else if b.val = 0 then .error .mathOverflow
  else .ok ⟨a.val * WAD / b.val⟩

/-- Decimal::try_ceil_u64:
`wad().checked_sub(1)?.checked_add(self.0)?.checked_div(wad())?` narrowed to
u64, i.e. the ceiling of `val / WAD`, failing when the checked addition
overflows `U192` or when the ceiling does not fit in a u64. -/
def Decimal.try_ceil_u64 (a : Decimal) : Except PErr Nat :=
  if 2 ^ 192 ≤ (WAD - 1) + a.val then .error .mathOverflow
  else if ((WAD - 1) + a.val) / WAD < 2 ^ 64 then .ok (((WAD - 1) + a.val) / WAD)
  else .error .mathOverflow

/-- Decimal::try_floor_u64: `self.0.checked_div(wad())?` narrowed to u64. -/
def Decimal.try_floor_u64 (a : Decimal) : Except PErr Nat :=
  if a.val / WAD < 2 ^ 64 then .ok (a.val / WAD) else .error .mathOverflow

/-- `solana_maths::Rate`: unsigned fixed-point value scaled by `WAD`, stored
in a 128-bit integer. -/
structure Rate where
  val : Nat
deriving DecidableEq

/-- Rate::from_scaled_val(v: u64). -/
def Rate.from_scaled_val (v : Nat) : Rate := ⟨v⟩

/-- Rate::to_scaled_val(): the scaled value as a u128. -/
def Rate.to_scaled_val (r : Rate) : Nat := r.val

/-- Rate::try_from(d: Decimal): keeps the scaled value, `MathOverflow` when it
does not fit in a u128. -/
def Rate.try_from_decimal (d : Decimal) : Except PErr Rate :=
  if d.val < 2 ^ 128 then .ok ⟨d.val⟩ else .error .mathOverflow

/-- `port_variable_rate_lending_instructions::state::CollateralExchangeRate`:
wraps a port-math `Rate` (u128 scaled value). -/
structure CollateralExchangeRate where
  rate : Nat
deriving DecidableEq

/-- CollateralExchangeRate::collateral_to_liquidity(amount: u64):
`Decimal::from(amount).try_div(self.0)?.try_floor_u64()`. -/
def CollateralExchangeRate.collateral_to_liquidity
    (er : CollateralExchangeRate) (collateral_amount : Nat) : Except PErr Nat :=
  match (Decimal.from_u64 collateral_amount).try_div ⟨er.rate⟩ with
  | .error e => .error e
  | .ok d => d.try_floor_u64

/-- `port_variable_rate_lending_instructions::state::INITIAL_COLLATERAL_RATE`:
the protocol's fixed initial collateral exchange rate, an initial ratio of 1
scaled by `WAD`. -/
def INITIAL_COLLATERAL_RATE : Nat := 1 * WAD

/-- Little-endian integer value of a byte list (`u64::from_le_bytes` /
`u128::from_le_bytes`). -/
def leNat : List Nat → Nat
  | [] => 0
  | b :: rest => b + 256 * leNat rest

/-- Little-endian encoding of `v` on `n` bytes (used only to build concrete
test buffers). -/
def leBytes : Nat → Nat → List Nat
  | _, 0 => []
  | v, n + 1 => (v % 256) :: leBytes (v / 256) n

/-- The `len` bytes of a buffer starting at offset `off`. -/
def bytesAt (bytes : List Nat) (off len : Nat) : List Nat :=
  (bytes.drop off).take len

/-- A Solana account buffer: the raw data, plus whether `try_borrow_data` can
currently take the shared borrow. -/
structure AccountInfo where
  data : List Nat
  borrowable : Bool
deriving DecidableEq

/-- AccountInfo::try_borrow_data: the account data when the borrow succeeds,
the `AccountBorrowFailed` program error otherwise. -/
def AccountInfo.try_borrow_data (a : AccountInfo) : Except PErr (List Nat) :=
  if a.borrowable then .ok a.data else .error .borrowFailed

/-- Rust slice indexing `bytes[a..b]`: the sub-slice when the range is in
bounds, a panic (`crash`) otherwise — Rust performs no partial read and
returns no error value for an out-of-range slice. -/
def sliceRange (bytes : List Nat) (a b : Nat) : Except PErr (List Nat) :=
  if a ≤ b ∧ b ≤ bytes.length then .ok ((bytes.drop a).take (b - a)) else .error .crash

/-- Rust indexing `bytes[i]`: the byte when in bounds, a panic (`crash`)
otherwise. -/
def byteAt (bytes : List Nat) (i : Nat) : Except PErr Nat :=
  if i < bytes.length then .ok (bytes.getD i 0) else .error .crash

/-- port_accessor::unpack_decimal: `u128::from_le_bytes` of a 16-byte slice,
taken as a scaled `Decimal` value. -/
def unpack_decimal (src : List Nat) : Decimal :=
  Decimal.from_scaled_val (leNat src)

/-- port_accessor::reserve_available_liquidity: u64 at bytes 175..183. -/
def reserve_available_liquidity (account : AccountInfo) : Except PErr Nat :=
  match account.try_borrow_data with
  | .error e => .error e
  | .ok bytes =>
    match sliceRange bytes 175 183 with
    | .error e => .error e
    | .ok amount_bytes => .ok (leNat amount_bytes)

/-- port_accessor::reserve_borrowed_amount: 16-byte Decimal at bytes 183..199. -/
def reserve_borrowed_amount (account : AccountInfo) : Except PErr Decimal :=
  match account.try_borrow_data with
  | .error e => .error e
  | .ok bytes =>
    match sliceRange bytes 183 199 with
    | .error e => .error e
    | .ok amount_bytes => .ok (unpack_decimal amount_bytes)

/-- port_accessor::reserve_total_liquidity:
`borrowed_amount.try_add(Decimal::from(available_liquidity))`. -/
def reserve_total_liquidity (account : AccountInfo) : Except PErr Decimal :=
  match reserve_available_liquidity account with
  | .error e => .error e
  | .ok available_liquidity =>
    match reserve_borrowed_amount account with
    | .error e => .error e
    | .ok borrowed_amount => borrowed_amount.try_add (Decimal.from_u64 available_liquidity)

/-- port_accessor::reserve_mint_total: u64 at bytes 263..271 (collateral mint
total supply). -/
def reserve_mint_total (account : AccountInfo) : Except PErr Nat :=
  match account.try_borrow_data with
  | .error e => .error e
  | .ok bytes =>
    match sliceRange bytes 263 271 with
    | .error e => .error e
    | .ok amount_bytes => .ok (leNat amount_bytes)

/-- port_accessor::exchange_rate: the initial rate when the mint supply or the
total liquidity is zero, otherwise `mint_total_supply / total_liquidity`
converted to a `Rate` and widened into the `CollateralExchangeRate`
representation. -/
def exchange_rate (account : AccountInfo) : Except PErr CollateralExchangeRate :=
  match reserve_mint_total account with
  | .error e => .error e
  | .ok mint_total_supply =>
    match reserve_total_liquidity account with
    | .error e => .error e
    | .ok total_liquidity =>
      let rate : Except PErr Rate :=
        if mint_total_supply = 0 ∨ total_liquidity = Decimal.zero then
          .ok (Rate.from_scaled_val INITIAL_COLLATERAL_RATE)
        else
          match (Decimal.from_u64 mint_total_supply).try_div total_liquidity with
          | .error e => .error e
          | .ok q => Rate.try_from_decimal q
      match rate with
      | .error e => .error e
      | .ok r => .ok ⟨r.to_scaled_val⟩

/-- port_accessor::obligation_deposits_count: the byte at offset 138. -/
def obligation_deposits_count (account : AccountInfo) : Except PErr Nat :=
  match account.try_borrow_data with
  | .error e => .error e
  | .ok bytes => byteAt bytes 138

/-- port_accessor::obligation_borrows_count: the byte at offset 139. -/
def obligation_borrows_count (account : AccountInfo) : Except PErr Nat :=
  match account.try_borrow_data with
  | .error e => .error e
  | .ok bytes => byteAt bytes 139

/-- `OBLIGATION_COLLATERAL_LEN`: packed stride of one deposit entry
(32-byte reserve id + 8-byte amount + 16-byte market value + 32 padding). -/
def OBLIGATION_COLLATERAL_LEN : Nat := 88

/-- `OBLIGATION_LIQUIDITY_LEN`: packed stride of one borrow entry (32-byte
reserve id + 16-byte cumulative rate + 16-byte amount wads + 16-byte market
value + 32 padding). -/
def OBLIGATION_LIQUIDITY_LEN : Nat := 112

/-- `PUBKEY_BYTES`: length of a 32-byte identifier. -/
def PUBKEY_BYTES : Nat := 32

/-- port_accessor::obligation_borrow_amount_wads: bounds-checks `n` against
the borrow count, then unpacks the 16-byte Decimal at
`140 + deposit_count * OBLIGATION_COLLATERAL_LEN + n * OBLIGATION_LIQUIDITY_LEN
+ PUBKEY_BYTES + 16`. -/
def obligation_borrow_amount_wads (account : AccountInfo) (n : Nat) : Except PErr Decimal :=
  match account.try_borrow_data with
  | .error e => .error e
  | .ok bytes =>
    match obligation_deposits_count account with
    | .error e => .error e
    | .ok deposit_lens =>
      match obligation_borrows_count account with
      | .error e => .error e
      | .ok borrows_lens =>
        if borrows_lens ≤ n then .error .borrowIndexOutOfBound
        else
          match sliceRange bytes
              (140 + deposit_lens * OBLIGATION_COLLATERAL_LEN + n * OBLIGATION_LIQUIDITY_LEN +
                PUBKEY_BYTES + 16)
              (140 + deposit_lens * OBLIGATION_COLLATERAL_LEN + n * OBLIGATION_LIQUIDITY_LEN +
                PUBKEY_BYTES + 16 + 16) with
          | .error e => .error e
          | .ok amount_bytes => .ok (unpack_decimal amount_bytes)

/-- port_accessor::obligation_deposit_amount: bounds-checks `n` against the
deposit count, then reads the u64 at
`140 + n * OBLIGATION_COLLATERAL_LEN + PUBKEY_BYTES`. -/
def obligation_deposit_amount (account : AccountInfo) (n : Nat) : Except PErr Nat :=
  match account.try_borrow_data with
  | .error e => .error e
  | .ok bytes =>
    match obligation_deposits_count account with
    | .error e => .error e
    | .ok deposit_lens =>
      if deposit_lens ≤ n then .error .collateralIndexOutOfBound
      else
        match sliceRange bytes (140 + n * OBLIGATION_COLLATERAL_LEN + PUBKEY_BYTES)
            (140 + n * OBLIGATION_COLLATERAL_LEN + PUBKEY_BYTES + 8) with
        | .error e => .error e
        | .ok amount_bytes => .ok (leNat amount_bytes)

/-- The deposit-side let-binding of port_accessor::obligation_liquidity: 0
when there are no deposits, otherwise the deposit amount at `deposit_index`
converted through the exchange rate. -/
def obligation_liquidity_deposit (account : AccountInfo)
    (port_exchange_rate : CollateralExchangeRate) (deposit_index : Nat) : Except PErr Nat :=
  match obligation_deposits_count account with
  | .error e => .error e
  | .ok dcount =>
    if dcount = 0 then .ok 0
    else
      match obligation_deposit_amount account deposit_index with
      | .error e => .error e
      | .ok amount => port_exchange_rate.collateral_to_liquidity amount

/-- The borrow-side let-binding of port_accessor::obligation_liquidity:
`Decimal::zero()` when there are no borrows, otherwise the borrow amount wads
at `borrow_index`. -/
def obligation_liquidity_borrow (account : AccountInfo) (borrow_index : Nat) :
    Except PErr Decimal :=
  match obligation_borrows_count account with
  | .error e => .error e
  | .ok bcount =>
    if bcount = 0 then .ok Decimal.zero
    else obligation_borrow_amount_wads account borrow_index

/-- port_accessor::obligation_liquidity:
`Decimal::from(deposit).try_sub(borrow)`. -/
def obligation_liquidity (account : AccountInfo) (port_exchange_rate : CollateralExchangeRate)
    (deposit_index borrow_index : Nat) : Except PErr Decimal :=
  match obligation_liquidity_deposit account port_exchange_rate deposit_index with
  | .error e => .error e
  | .ok deposit =>
    match obligation_liquidity_borrow account borrow_index with
    | .error e => .error e
    | .ok borrow => (Decimal.from_u64 deposit).try_sub borrow

/-- A 32-byte account identifier; only equality is used by the code under
verification, so it is kept abstract. -/
abbrev Pubkey := Nat

/-- One deposit entry of a decoded `Obligation` (the fields
`calculate_liquidity` reads). -/
structure ObligationCollateral where
  deposit_reserve : Pubkey
  deposited_amount : Nat
deriving DecidableEq

/-- One borrow entry of a decoded `Obligation` (the fields
`calculate_liquidity` reads). -/
structure ObligationLiquidity where
  borrow_reserve : Pubkey
  borrowed_amount_wads : Decimal
deriving DecidableEq

/-- A decoded `Obligation`: its deposit and borrow entry arrays. -/
structure Obligation where
  deposits : List ObligationCollateral
  borrows : List ObligationLiquidity
deriving DecidableEq

/-- The borrow find_map of PortObligation::calculate_liquidity: the
borrowed-amount wads of the first borrow entry whose reserve matches, or
`Decimal::zero()` when none matches. -/
def matchedBorrowWads (self : Obligation) (reserve_pubkey : Pubkey) : Decimal :=
  (self.borrows.findSome? fun b =>
    if b.borrow_reserve = reserve_pubkey then some b.borrowed_amount_wads else none).getD
    Decimal.zero

/-- The deposit find_map of PortObligation::calculate_liquidity: the deposited
amount of the first deposit entry whose reserve matches, or 0 when none
matches. -/
def matchedDepositAmount (self : Obligation) (reserve_pubkey : Pubkey) : Nat :=
  (self.deposits.findSome? fun b =>
    if b.deposit_reserve = reserve_pubkey then some b.deposited_amount else none).getD 0

/-- u64::checked_sub. -/
def u64_checked_sub (a b : Nat) : Option Nat :=
  if b ≤ a then some (a - b) else none

/-- The final computation of PortObligation::calculate_liquidity on the
matched deposit and borrow amounts:
`exchange_rate.collateral_to_liquidity(deposit)?
  .checked_sub(borrow.try_ceil_u64()?).ok_or(Insolvency)`. -/
def calculate_liquidity_core (exchangeRate : CollateralExchangeRate)
    (deposit : Nat) (borrow : Decimal) : Except PErr Nat :=
  match exchangeRate.collateral_to_liquidity deposit with
  | .error e => .error e
  | .ok liq =>
    match borrow.try_ceil_u64 with
    | .error e => .error e
    | .ok c =>
      match u64_checked_sub liq c with
      | some r => .ok r
      | none => .error .insolvency

/-- PortObligation::calculate_liquidity. -/
def calculate_liquidity (self : Obligation) (reserve_pubkey : Pubkey)
    (exchangeRate : CollateralExchangeRate) : Except PErr Nat :=
  calculate_liquidity_core exchangeRate (matchedDepositAmount self reserve_pubkey)
    (matchedBorrowWads self reserve_pubkey)

/-- Mathematical ceiling of a Decimal to whole units, following the words of
the specification (the borrow amount rounded up to the next whole unit).
Used only to state claims, to be compared with the code's fallible
`try_ceil_u64`. -/
def ceilingUnits (d : Decimal) : Nat := (d.val + (WAD - 1)) / WAD

/-! Helper lemmas about the primitive operations. -/

theorem try_borrow_data_ok (acc : AccountInfo) (h : acc.borrowable = true) :
    acc.try_borrow_data = .ok acc.data := by
  simp [AccountInfo.try_borrow_data, h]

theorem try_borrow_data_error (acc : AccountInfo) (e : PErr)
    (h : acc.try_borrow_data = .error e) : e = .borrowFailed := by
  unfold AccountInfo.try_borrow_data at h
  split at h
  · exact Except.noConfusion h
  · exact (Except.error.inj h).symm

theorem byteAt_ok (bytes : List Nat) (i : Nat) (h : i < bytes.length) :
    byteAt bytes i = .ok (bytes.getD i 0) := by
  simp [byteAt, h]

theorem byteAt_error (bytes : List Nat) (i : Nat) (e : PErr)
    (h : byteAt bytes i = .error e) : e = .crash := by
  unfold byteAt at h
  split at h
  · exact Except.noConfusion h
  · exact (Except.error.inj h).symm

theorem byteAt_short (bytes : List Nat) (i : Nat) (h : bytes.length ≤ i) :
    byteAt bytes i = .error .crash := by
  have hn : ¬ i < bytes.length := by omega
  simp [byteAt, hn]

theorem sliceRange_ok (bytes : List Nat) (a b : Nat) (hab : a ≤ b) (hb : b ≤ bytes.length) :
    sliceRange bytes a b = .ok (bytesAt bytes a (b - a)) := by
  simp [sliceRange, bytesAt, hab, hb]

theorem sliceRange_error (bytes : List Nat) (a b : Nat) (e : PErr)
    (h : sliceRange bytes a b = .error e) : e = .crash := by
  unfold sliceRange at h
  split at h
  · exact Except.noConfusion h
  · exact (Except.error.inj h).symm

theorem sliceRange_short (bytes : List Nat) (a b : Nat) (hb : bytes.length < b) :
    sliceRange bytes a b = .error .crash := by
  have hn : ¬ (a ≤ b ∧ b ≤ bytes.length) := by omega
  simp [sliceRange, hn]

theorem Decimal.try_add_error (a b : Decimal) (e : PErr) (h : a.try_add b = .error e) :
    e = .mathOverflow := by
  unfold Decimal.try_add at h
  split at h
  · exact Except.noConfusion h
  · exact (Except.error.inj h).symm

theorem Decimal.try_sub_error (a b : Decimal) (e : PErr) (h : a.try_sub b = .error e) :
    e = .mathOverflow := by
  unfold Decimal.try_sub at h
  split at h
  · exact Except.noConfusion h
  · exact (Except.error.inj h).symm

theorem Decimal.try_div_error (a b : Decimal) (e : PErr) (h : a.try_div b = .error e) :
    e = .mathOverflow := by
  unfold Decimal.try_div at h
  split at h
  · exact (Except.error.inj h).symm
  · split at h
    · exact (Except.error.inj h).symm
    · exact Except.noConfusion h

theorem Decimal.try_ceil_u64_error (a : Decimal) (e : PErr) (h : a.try_ceil_u64 = .error e) :
    e = .mathOverflow := by
  unfold Decimal.try_ceil_u64 at h
  split at h
  · exact (Except.error.inj h).symm
  · split at h
    · exact Except.noConfusion h
    · exact (Except.error.inj h).symm

theorem Decimal.try_floor_u64_error (a : Decimal) (e : PErr) (h : a.try_floor_u64 = .error e) :
    e = .mathOverflow := by
  unfold Decimal.try_floor_u64 at h
  split at h
  · exact Except.noConfusion h
  · exact (Except.error.inj h).symm

theorem collateral_to_liquidity_error (er : CollateralExchangeRate) (c : Nat) (e : PErr)
    (h : er.collateral_to_liquidity c = .error e) : e = .mathOverflow := by
  unfold CollateralExchangeRate.collateral_to_liquidity at h
  cases hx : (Decimal.from_u64 c).try_div (⟨er.rate⟩ : Decimal) with
  | error e1 =>
    rw [hx] at h
    have h2 : Except.error (α := Nat) e1 = .error e := h
    rw [← Except.error.inj h2]
    exact Decimal.try_div_error _ _ _ hx
  | ok d =>
    rw [hx] at h
    exact Decimal.try_floor_u64_error d e h

/-- Success characterization of `collateral_to_liquidity`: the floored
quotient of the amount (as a wad-scaled decimal) by the rate. -/
theorem collateral_to_liquidity_ok_iff (er : CollateralExchangeRate) (c L : Nat) :
    er.collateral_to_liquidity c = .ok L ↔
      (c * WAD * WAD < 2 ^ 192 ∧ er.rate ≠ 0 ∧ c * WAD * WAD / er.rate / WAD < 2 ^ 64 ∧
        L = c * WAD * WAD / er.rate / WAD) := by
  unfold CollateralExchangeRate.collateral_to_liquidity Decimal.try_div Decimal.try_floor_u64
    Decimal.from_u64
  by_cases h1 : 2 ^ 192 ≤ c * WAD * WAD
  · rw [if_pos h1]
    constructor
    · intro h
      exact Except.noConfusion h
    · intro h
      exact absurd h.1 (by omega)
  · by_cases h2 : er.rate = 0
    · rw [if_neg h1, if_pos h2]
      constructor
      · intro h
        exact Except.noConfusion h
      · intro h
        exact absurd h2 h.2.1
    · rw [if_neg h1, if_neg h2]
      show (if c * WAD * WAD / er.rate / WAD < 2 ^ 64 then
          (.ok (c * WAD * WAD / er.rate / WAD) : Except PErr Nat)
        else .error .mathOverflow) = .ok L ↔ _
      by_cases h3 : c * WAD * WAD / er.rate / WAD < 2 ^ 64
      · rw [if_pos h3]
        constructor
        · intro h
          exact ⟨by omega, h2, h3, (Except.ok.inj h).symm⟩
        · intro h
          rw [h.2.2.2]
      · rw [if_neg h3]
        constructor
        · intro h
          exact Except.noConfusion h
        · intro h
          exact absurd h.2.2.1 h3

/-- Success characterization of `try_ceil_u64`: the ceiling of `val / WAD`. -/
theorem try_ceil_u64_ok_iff (a : Decimal) (c : Nat) :
    a.try_ceil_u64 = .ok c ↔
      ((WAD - 1) + a.val < 2 ^ 192 ∧ ((WAD - 1) + a.val) / WAD < 2 ^ 64 ∧
        c = ((WAD - 1) + a.val) / WAD) := by
  unfold Decimal.try_ceil_u64
  by_cases h1 : 2 ^ 192 ≤ (WAD - 1) + a.val
  · rw [if_pos h1]
    constructor
    · intro h
      exact Except.noConfusion h
    · intro h
      exact absurd h.1 (by omega)
  · rw [if_neg h1]
    by_cases h2 : ((WAD - 1) + a.val) / WAD < 2 ^ 64
    · rw [if_pos h2]
      constructor
      · intro h
        exact ⟨by omega, h2, (Except.ok.inj h).symm⟩
      · intro h
        rw [h.2.2]
    · rw [if_neg h2]
      constructor
      · intro h
        exact Except.noConfusion h
      · intro h
        exact absurd h.2.1 h2

/-- Success inversion of the final step of `calculate_liquidity`. -/
theorem calculate_liquidity_core_ok_iff (er : CollateralExchangeRate) (dep : Nat) (bor : Decimal)
    (r : Nat) :
    calculate_liquidity_core er dep bor = .ok r ↔
      ∃ L c, er.collateral_to_liquidity dep = .ok L ∧ bor.try_ceil_u64 = .ok c ∧ c ≤ L ∧
        r = L - c := by
  unfold calculate_liquidity_core u64_checked_sub
  cases hL : er.collateral_to_liquidity dep with
  | error e =>
    constructor
    · intro h
      exact Except.noConfusion h
    · intro h
      obtain ⟨L, c, hconv, _, _, _⟩ := h
      exact Except.noConfusion hconv
  | ok L =>
    cases hc : bor.try_ceil_u64 with
    | error e =>
      constructor
      · intro h
        exact Except.noConfusion h
      · intro h
        obtain ⟨L2, c, _, hceil, _, _⟩ := h
        exact Except.noConfusion hceil
    | ok c =>
      show (match (if c ≤ L then some (L - c) else none : Option Nat) with
        | some r => (Except.ok r : Except PErr Nat)
        | none => Except.error PErr.insolvency) = Except.ok r ↔ _
      by_cases hle : c ≤ L
      · rw [if_pos hle]
        constructor
        · intro h
          exact ⟨L, c, rfl, rfl, hle, (Except.ok.inj h).symm⟩
        · intro h
          obtain ⟨L2, c2, hconv, hceil, hle2, hr⟩ := h
          have hL2 : L = L2 := Except.ok.inj hconv
          have hc2 : c = c2 := Except.ok.inj hceil
          exact congrArg Except.ok (by omega)
      · rw [if_neg hle]
        constructor
        · intro h
          exact Except.noConfusion h
        · intro h
          obtain ⟨L2, c2, hconv, hceil, hle2, _⟩ := h
          have hL2 : L = L2 := Except.ok.inj hconv
          have hc2 : c = c2 := Except.ok.inj hceil
          exact absurd (show c ≤ L by omega) hle

/-- Bound on a little-endian byte value: a list of bytes denotes less than
256 to the power of its length. -/
theorem leNat_lt_of_bytes (bs : List Nat) (h : ∀ x ∈ bs, x < 256) :
    leNat bs < 256 ^ bs.length := by
  induction bs with
  | nil => simp [leNat]
  | cons a t ih =>
    have ha := h a (List.mem_cons_self a t)
    have ht := ih (fun x hx => h x (List.mem_cons_of_mem a hx))
    simp only [leNat, List.length_cons, pow_succ]
    have h2 : 256 * (leNat t + 1) ≤ 256 * 256 ^ t.length :=
      Nat.mul_le_mul_left 256 (by omega)
    omega

theorem bytesAt_length (bytes : List Nat) (off len : Nat) (h : off + len ≤ bytes.length) :
    (bytesAt bytes off len).length = len := by
  simp [bytesAt]
  omega

theorem bytesAt_mem (bytes : List Nat) (off len : Nat) (x : Nat) (hx : x ∈ bytesAt bytes off len) :
    x ∈ bytes :=
  List.drop_subset off bytes (List.take_subset len (bytes.drop off) hx)

/-- find_map takes the first match: entries before it map to none, entries
after it are never examined. -/
theorem findSome?_first {α β : Type} (f : α → Option β) (pre : List α) (x : α) (post : List α)
    (v : β) (hpre : ∀ a ∈ pre, f a = none) (hx : f x = some v) :
    (pre ++ x :: post).findSome? f = some v := by
  induction pre with
  | nil => simp [List.findSome?, hx]
  | cons a t ih =>
    have ha : f a = none := hpre a (List.mem_cons_self a t)
    simp only [List.cons_append, List.findSome?, ha]
    exact ih (fun y hy => hpre y (List.mem_cons_of_mem a hy))

/-! Characterizations of the obligation accessors. -/

theorem obligation_deposits_count_ok (acc : AccountInfo) (d : Nat)
    (h : obligation_deposits_count acc = .ok d) :
    acc.borrowable = true ∧ 138 < acc.data.length ∧ acc.data.getD 138 0 = d := by
  unfold obligation_deposits_count at h
  cases hb : acc.borrowable with
  | false =>
    rw [show acc.try_borrow_data = .error .borrowFailed from by
      simp [AccountInfo.try_borrow_data, hb]] at h
    exact Except.noConfusion h
  | true =>
    rw [try_borrow_data_ok acc hb] at h
    have h2 : byteAt acc.data 138 = .ok d := h
    unfold byteAt at h2
    split at h2
    · rename_i hlt
      exact ⟨rfl, hlt, Except.ok.inj h2⟩
    · exact Except.noConfusion h2

theorem obligation_borrows_count_ok (acc : AccountInfo) (b : Nat)
    (h : obligation_borrows_count acc = .ok b) :
    acc.borrowable = true ∧ 139 < acc.data.length ∧ acc.data.getD 139 0 = b := by
  unfold obligation_borrows_count at h
  cases hb : acc.borrowable with
  | false =>
    rw [show acc.try_borrow_data = .error .borrowFailed from by
      simp [AccountInfo.try_borrow_data, hb]] at h
    exact Except.noConfusion h
  | true =>
    rw [try_borrow_data_ok acc hb] at h
    have h2 : byteAt acc.data 139 = .ok b := h
    unfold byteAt at h2
    split at h2
    · rename_i hlt
      exact ⟨rfl, hlt, Except.ok.inj h2⟩
    · exact Except.noConfusion h2

theorem obligation_deposits_count_error (acc : AccountInfo) (e : PErr)
    (h : obligation_deposits_count acc = .error e) : e = .borrowFailed ∨ e = .crash := by
  unfold obligation_deposits_count at h
  cases hb : acc.try_borrow_data with
  | error e1 =>
    rw [hb] at h
    have h2 : Except.error (α := Nat) e1 = .error e := h
    left
    rw [← Except.error.inj h2]
    exact try_borrow_data_error acc e1 hb
  | ok bytes =>
    rw [hb] at h
    right
    exact byteAt_error bytes 138 e h

theorem obligation_borrows_count_error (acc : AccountInfo) (e : PErr)
    (h : obligation_borrows_count acc = .error e) : e = .borrowFailed ∨ e = .crash := by
  unfold obligation_borrows_count at h
  cases hb : acc.try_borrow_data with
  | error e1 =>
    rw [hb] at h
    have h2 : Except.error (α := Nat) e1 = .error e := h
    left
    rw [← Except.error.inj h2]
    exact try_borrow_data_error acc e1 hb
  | ok bytes =>
    rw [hb] at h
    right
    exact byteAt_error bytes 139 e h

theorem obligation_deposit_amount_oob (acc : AccountInfo) (n d : Nat)
    (hdc : obligation_deposits_count acc = .ok d) (hn : d ≤ n) :
    obligation_deposit_amount acc n = .error .collateralIndexOutOfBound := by
  obtain ⟨hb, _, _⟩ := obligation_deposits_count_ok acc d hdc
  simp only [obligation_deposit_amount, try_borrow_data_ok acc hb, hdc]
  rw [if_pos hn]

theorem obligation_deposit_amount_ok (acc : AccountInfo) (n d : Nat)
    (hdc : obligation_deposits_count acc = .ok d) (hn : n < d)
    (hlen : 140 + n * 88 + 32 + 8 ≤ acc.data.length) :
    obligation_deposit_amount acc n = .ok (leNat (bytesAt acc.data (140 + n * 88 + 32) 8)) := by
  obtain ⟨hb, _, _⟩ := obligation_deposits_count_ok acc d hdc
  have hnle : ¬ d ≤ n := by omega
  simp only [obligation_deposit_amount, try_borrow_data_ok acc hb, hdc,
    OBLIGATION_COLLATERAL_LEN, PUBKEY_BYTES, if_neg hnle,
    sliceRange_ok acc.data (140 + n * 88 + 32) (140 + n * 88 + 32 + 8) (by omega) hlen,
    Nat.add_sub_cancel_left]

theorem obligation_deposit_amount_error (acc : AccountInfo) (n : Nat) (e : PErr)
    (h : obligation_deposit_amount acc n = .error e) :
    e = .borrowFailed ∨ e = .crash ∨ e = .collateralIndexOutOfBound := by
  unfold obligation_deposit_amount at h
  cases hb : acc.try_borrow_data with
  | error e1 =>
    rw [hb] at h
    have h2 : Except.error (α := Nat) e1 = .error e := h
    left
    rw [← Except.error.inj h2]
    exact try_borrow_data_error acc e1 hb
  | ok bytes =>
    cases hdc : obligation_deposits_count acc with
    | error e1 =>
      rw [hb, hdc] at h
      have h2 : Except.error (α := Nat) e1 = .error e := h
      rw [← Except.error.inj h2]
      rcases obligation_deposits_count_error acc e1 hdc with h3 | h3
      · exact Or.inl h3
      · exact Or.inr (Or.inl h3)
    | ok d =>
      simp only [hb, hdc] at h
      split at h
      · right; right
        exact (Except.error.inj h).symm
      · split at h
        · rename_i e1 heq
          right; left
          rw [← Except.error.inj h]
          exact sliceRange_error _ _ _ _ heq
        · exact Except.noConfusion h

theorem obligation_borrow_amount_wads_oob (acc : AccountInfo) (n d b : Nat)
    (hdc : obligation_deposits_count acc = .ok d)
    (hbc : obligation_borrows_count acc = .ok b) (hn : b ≤ n) :
    obligation_borrow_amount_wads acc n = .error .borrowIndexOutOfBound := by
  obtain ⟨hb2, _, _⟩ := obligation_deposits_count_ok acc d hdc
  simp only [obligation_borrow_amount_wads, try_borrow_data_ok acc hb2, hdc, hbc]
  rw [if_pos hn]

theorem obligation_borrow_amount_wads_ok (acc : AccountInfo) (n d b : Nat)
    (hdc : obligation_deposits_count acc = .ok d)
    (hbc : obligation_borrows_count acc = .ok b) (hn : n < b)
    (hlen : 140 + d * 88 + n * 112 + 32 + 16 + 16 ≤ acc.data.length) :
    obligation_borrow_amount_wads acc n =
      .ok (Decimal.from_scaled_val
        (leNat (bytesAt acc.data (140 + d * 88 + n * 112 + 32 + 16) 16))) := by
  obtain ⟨hb2, _, _⟩ := obligation_deposits_count_ok acc d hdc
  have hnle : ¬ b ≤ n := by omega
  simp only [obligation_borrow_amount_wads, try_borrow_data_ok acc hb2, hdc, hbc,
    OBLIGATION_COLLATERAL_LEN, OBLIGATION_LIQUIDITY_LEN, PUBKEY_BYTES, if_neg hnle,
    sliceRange_ok acc.data (140 + d * 88 + n * 112 + 32 + 16)
      (140 + d * 88 + n * 112 + 32 + 16 + 16) (by omega) hlen,
    Nat.add_sub_cancel_left, unpack_decimal]

theorem obligation_borrow_amount_wads_error (acc : AccountInfo) (n : Nat) (e : PErr)
    (h : obligation_borrow_amount_wads acc n = .error e) :
    e = .borrowFailed ∨ e = .crash ∨ e = .borrowIndexOutOfBound := by
  unfold obligation_borrow_amount_wads at h
  cases hb : acc.try_borrow_data with
  | error e1 =>
    rw [hb] at h
    have h2 : Except.error (α := Decimal) e1 = .error e := h
    left
    rw [← Except.error.inj h2]
    exact try_borrow_data_error acc e1 hb
  | ok bytes =>
    cases hdc : obligation_deposits_count acc with
    | error e1 =>
      rw [hb, hdc] at h
      have h2 : Except.error (α := Decimal) e1 = .error e := h
      rw [← Except.error.inj h2]
      rcases obligation_deposits_count_error acc e1 hdc with h3 | h3
      · exact Or.inl h3
      · exact Or.inr (Or.inl h3)
    | ok d =>
      cases hbc : obligation_borrows_count acc with
      | error e1 =>
        rw [hb, hdc, hbc] at h
        have h2 : Except.error (α := Decimal) e1 = .error e := h
        rw [← Except.error.inj h2]
        rcases obligation_borrows_count_error acc e1 hbc with h3 | h3
        · exact Or.inl h3
        · exact Or.inr (Or.inl h3)
      | ok b =>
        simp only [hb, hdc, hbc] at h
        split at h
        · right; right
          exact (Except.error.inj h).symm
        · split at h
          · rename_i e1 heq
            right; left
            rw [← Except.error.inj h]
            exact sliceRange_error _ _ _ _ heq
          · exact Except.noConfusion h

/-! Characterizations of the two halves of `obligation_liquidity`. -/

theorem obligation_liquidity_deposit_zero (acc : AccountInfo) (er : CollateralExchangeRate)
    (di : Nat) (h : obligation_deposits_count acc = .ok 0) :
    obligation_liquidity_deposit acc er di = .ok 0 := by
  simp [obligation_liquidity_deposit, h]

theorem obligation_liquidity_borrow_zero (acc : AccountInfo) (bi : Nat)
    (h : obligation_borrows_count acc = .ok 0) :
    obligation_liquidity_borrow acc bi = .ok Decimal.zero := by
  simp [obligation_liquidity_borrow, h]

theorem obligation_liquidity_deposit_error (acc : AccountInfo) (er : CollateralExchangeRate)
    (di : Nat) (e : PErr) (h : obligation_liquidity_deposit acc er di = .error e) :
    e = .borrowFailed ∨ e = .crash ∨ e = .collateralIndexOutOfBound ∨ e = .mathOverflow := by
  unfold obligation_liquidity_deposit at h
  cases hdc : obligation_deposits_count acc with
  | error e1 =>
    rw [hdc] at h
    have h2 : Except.error (α := Nat) e1 = .error e := h
    rw [← Except.error.inj h2]
    rcases obligation_deposits_count_error acc e1 hdc with h3 | h3
    · exact Or.inl h3
    · exact Or.inr (Or.inl h3)
  | ok d =>
    simp only [hdc] at h
    split at h
    · exact Except.noConfusion h
    · split at h
      · rename_i e1 heq
        rw [← Except.error.inj h]
        rcases obligation_deposit_amount_error acc di e1 heq with h3 | h3 | h3
        · exact Or.inl h3
        · exact Or.inr (Or.inl h3)
        · exact Or.inr (Or.inr (Or.inl h3))
      · rename_i amt heq
        right; right; right
        exact collateral_to_liquidity_error er amt e h

theorem obligation_liquidity_borrow_error (acc : AccountInfo) (bi : Nat) (e : PErr)
    (h : obligation_liquidity_borrow acc bi = .error e) :
    e = .borrowFailed ∨ e = .crash ∨ e = .borrowIndexOutOfBound := by
  unfold obligation_liquidity_borrow at h
  cases hbc : obligation_borrows_count acc with
  | error e1 =>
    rw [hbc] at h
    have h2 : Except.error (α := Decimal) e1 = .error e := h
    rw [← Except.error.inj h2]
    rcases obligation_borrows_count_error acc e1 hbc with h3 | h3
    · exact Or.inl h3
    · exact Or.inr (Or.inl h3)
  | ok b =>
    simp only [hbc] at h
    split at h
    · exact Except.noConfusion h
    · exact obligation_borrow_amount_wads_error acc bi e h

/-! Concrete accounts and obligations used as witnesses and counterexamples.
Obligation buffers follow the packed layout: byte 138 deposit count, byte 139
borrow count, deposit entries of stride 88 from byte 140 (32-byte reserve id,
8-byte amount, 48 further bytes), then borrow entries of stride 112 (32-byte
reserve id, 16-byte cumulative rate, 16-byte amount wads, 48 further bytes). -/

def wPk : Pubkey := 7

def wEr : CollateralExchangeRate := ⟨WAD⟩

def wObA : Obligation := ⟨[⟨wPk, 100⟩], [⟨wPk, ⟨504 * 10 ^ 17⟩⟩]⟩

def wObB : Obligation := ⟨[⟨wPk, 200⟩], [⟨wPk, ⟨50 * WAD⟩⟩]⟩

def cexObOverflow : Obligation := ⟨[], [⟨wPk, ⟨2 ^ 64 * WAD⟩⟩]⟩

def wObAcc : AccountInfo :=
  ⟨List.replicate 138 0 ++ [1, 1] ++ List.replicate 32 0 ++ leBytes 100 8 ++
    List.replicate 48 0 ++ List.replicate 48 0 ++ leBytes (5 * WAD) 16 ++
    List.replicate 48 0, true⟩

def cexObAcc : AccountInfo :=
  ⟨List.replicate 138 0 ++ [1, 1] ++ List.replicate 88 0 ++ List.replicate 48 0 ++
    leBytes (5 * WAD) 16 ++ List.replicate 48 0, true⟩

def zeroObAcc : AccountInfo := ⟨List.replicate 340 0, true⟩

def wResAcc : AccountInfo :=
  ⟨List.replicate 175 0 ++ leBytes 1000000 8 ++ List.replicate 16 0 ++
    List.replicate 64 0 ++ leBytes 2000000 8, true⟩

def cexResAcc : AccountInfo :=
  ⟨List.replicate 183 0 ++ leBytes 1 16 ++ List.replicate 64 0 ++
    leBytes (2 ^ 64 - 1) 8, true⟩

def shortResAcc : AccountInfo := ⟨List.replicate 100 0, true⟩

def shortObAcc : AccountInfo := ⟨List.replicate 10 0, true⟩

/-- Claim C5: for every reserve buffer (readable, at least 199 bytes long, made
of bytes), `reserve_total_liquidity` succeeds and equals exactly the
fixed-point sum of the borrowed amount (bytes 183..199) and the available
liquidity (bytes 175..183) scaled by `WAD`, with no rounding loss; moreover
that sum is always below the decimal's representable range `2^192`, so the
overflow-failure clause of the claim never fires for buffer-derived values. -/
theorem reserve_total_liquidity_exact (acc : AccountInfo)
    (hbor : acc.borrowable = true) (hlen : 199 ≤ acc.data.length)
    (hbytes : ∀ x ∈ acc.data, x < 256) :
    reserve_total_liquidity acc =
      .ok ⟨leNat (bytesAt acc.data 183 16) + leNat (bytesAt acc.data 175 8) * WAD⟩ ∧
    leNat (bytesAt acc.data 183 16) + leNat (bytesAt acc.data 175 8) * WAD < 2 ^ 192 := by
  have hb16 : leNat (bytesAt acc.data 183 16) < 2 ^ 128 := by
    have h1 := leNat_lt_of_bytes (bytesAt acc.data 183 16)
      (fun x hx => hbytes x (bytesAt_mem _ _ _ _ hx))
    rw [bytesAt_length acc.data 183 16 (by omega)] at h1
    calc leNat (bytesAt acc.data 183 16) < 256 ^ 16 := h1
      _ ≤ 2 ^ 128 := by norm_num
  have ha8 : leNat (bytesAt acc.data 175 8) < 2 ^ 64 := by
    have h1 := leNat_lt_of_bytes (bytesAt acc.data 175 8)
      (fun x hx => hbytes x (bytesAt_mem _ _ _ _ hx))
    rw [bytesAt_length acc.data 175 8 (by omega)] at h1
    calc leNat (bytesAt acc.data 175 8) < 256 ^ 8 := h1
      _ ≤ 2 ^ 64 := by norm_num
  have h2 : leNat (bytesAt acc.data 175 8) * WAD ≤ (2 ^ 64 - 1) * WAD :=
    Nat.mul_le_mul_right WAD (by omega)
  have h3 : (2 : Nat) ^ 128 + (2 ^ 64 - 1) * WAD < 2 ^ 192 := by decide
  have hbound : leNat (bytesAt acc.data 183 16) + leNat (bytesAt acc.data 175 8) * WAD <
      2 ^ 192 := by omega
  refine ⟨?_, hbound⟩
  have ha : reserve_available_liquidity acc = .ok (leNat (bytesAt acc.data 175 8)) := by
    simp only [reserve_available_liquidity, try_borrow_data_ok acc hbor,
      sliceRange_ok acc.data 175 183 (by omega) (by omega)]
  have hbA : reserve_borrowed_amount acc = .ok ⟨leNat (bytesAt acc.data 183 16)⟩ := by
    simp only [reserve_borrowed_amount, try_borrow_data_ok acc hbor,
      sliceRange_ok acc.data 183 199 (by omega) (by omega), unpack_decimal,
      Decimal.from_scaled_val]
  simp only [reserve_total_liquidity, ha, hbA, Decimal.try_add, Decimal.from_u64]
  rw [if_pos hbound]

/-- Claim C5 witness: the concrete reserve buffer with available liquidity
1,000,000 and borrowed amount 0 has total liquidity exactly 1,000,000 · WAD. -/
theorem reserve_total_liquidity_exact_witness :
    reserve_total_liquidity wResAcc = .ok ⟨1000000 * WAD⟩ := by
  have h := (reserve_total_liquidity_exact wResAcc (by decide) (by decide) (by decide)).1
  rw [h]
  decide

/-- Claim C7 counterexample: a 100-byte buffer is shorter than the range
175..183 required by `reserve_available_liquidity`, and the read does NOT
fail with an error returned to the caller — it aborts with the out-of-range
slice panic (`crash`), contradicting the claim that a too-short buffer yields
a returned error rather than a crash. -/
theorem buffer_short_read_cex :
    shortResAcc.data.length < 183 ∧
    reserve_available_liquidity shortResAcc = .error .crash ∧
    PErr.crash.isReturnedError = false :=
  ⟨by decide, by decide, by decide⟩

/-- Claim C7 (amended): when the underlying buffer is shorter than the
required byte range, the accessors perform no partial read — they abort with
the Rust out-of-range slice panic (modelled as the `crash` outcome, which is
not an error value returned to the caller). -/
theorem buffer_short_read_aborts (acc : AccountInfo) (n : Nat)
    (hbor : acc.borrowable = true) :
    (acc.data.length < 183 → reserve_available_liquidity acc = .error .crash) ∧
    (acc.data.length < 139 → obligation_deposit_amount acc n = .error .crash) := by
  constructor
  · intro hlen
    simp only [reserve_available_liquidity, try_borrow_data_ok acc hbor,
      sliceRange_short acc.data 175 183 hlen]
  · intro hlen
    have hcount : obligation_deposits_count acc = .error .crash := by
      simp only [obligation_deposits_count, try_borrow_data_ok acc hbor,
        byteAt_short acc.data 138 (by omega)]
    simp only [obligation_deposit_amount, try_borrow_data_ok acc hbor, hcount]

/-- Claim C7 witness: both cited accessors abort with the panic outcome on a
10-byte buffer. -/
theorem buffer_short_read_aborts_witness :
    reserve_available_liquidity shortObAcc = .error .crash ∧
    obligation_deposit_amount shortObAcc 0 = .error .crash := by
  have h := buffer_short_read_aborts shortObAcc 0 (by decide)
  exact ⟨h.1 (by decide), h.2 (by decide)⟩

/-- Claim C2 counterexample: a reserve buffer with collateral mint total
supply `2^64 - 1` and total liquidity `10^-18` (scaled value 1) is in the
claim's "otherwise" case (nonzero supply, nonzero liquidity), yet
`exchange_rate` does not return the quotient as a Rate — the quotient
overflows the u128 Rate representation and the call fails with the arithmetic
error. -/
theorem exchange_rate_overflow_cex :
    reserve_mint_total cexResAcc = .ok (2 ^ 64 - 1) ∧
    reserve_total_liquidity cexResAcc = .ok ⟨1⟩ ∧
    ((2 ^ 64 - 1 : Nat) ≠ 0) ∧ ((⟨1⟩ : Decimal) ≠ Decimal.zero) ∧
    exchange_rate cexResAcc = .error .mathOverflow :=
  ⟨by decide, by decide, by decide, by decide, by decide⟩

/-- Claim C2 (amended): for every reserve buffer, `exchange_rate` returns the
fixed initial-rate constant whenever the mint total supply or the total
liquidity is zero (never attempting the division), and otherwise computes
`mintTotalSupply / totalLiquidity` (the wad-scaled floored quotient
`s·WAD·WAD / totalLiquidity.val`) and returns it widened into the
CollateralExchangeRate representation when it fits the u128 Rate range,
failing with the arithmetic overflow error when it does not. -/
theorem exchange_rate_spec (acc : AccountInfo) (s : Nat) (tl : Decimal)
    (hs : reserve_mint_total acc = .ok s)
    (htl : reserve_total_liquidity acc = .ok tl)
    (hs64 : s < 2 ^ 64) :
    ((s = 0 ∨ tl = Decimal.zero) → exchange_rate acc = .ok ⟨INITIAL_COLLATERAL_RATE⟩) ∧
    (s ≠ 0 → tl ≠ Decimal.zero →
      (s * WAD * WAD / tl.val < 2 ^ 128 →
        exchange_rate acc = .ok ⟨s * WAD * WAD / tl.val⟩) ∧
      (2 ^ 128 ≤ s * WAD * WAD / tl.val →
        exchange_rate acc = .error .mathOverflow)) := by
  constructor
  · intro h
    simp only [exchange_rate, hs, htl]
    rw [if_pos h]
    rfl
  · intro hs0 htl0
    have hcond : ¬ (s = 0 ∨ tl = Decimal.zero) := by
      intro hh
      rcases hh with hh | hh
      · exact hs0 hh
      · exact htl0 hh
    have htlval : ¬ tl.val = 0 := by
      intro hv
      apply htl0
      cases tl
      exact congrArg Decimal.mk hv
    have hdivok : (Decimal.from_u64 s).try_div tl = .ok ⟨s * WAD * WAD / tl.val⟩ := by
      have hov : ¬ 2 ^ 192 ≤ s * WAD * WAD := by
        have h1 : s * WAD * WAD ≤ (2 ^ 64 - 1) * WAD * WAD :=
          Nat.mul_le_mul_right WAD (Nat.mul_le_mul_right WAD (by omega))
        have h2 : (2 ^ 64 - 1) * WAD * WAD < 2 ^ 192 := by decide
        omega
      simp only [Decimal.try_div, Decimal.from_u64]
      rw [if_neg hov, if_neg htlval]
    constructor
    · intro hfit
      have hq : Rate.try_from_decimal ⟨s * WAD * WAD / tl.val⟩ = .ok ⟨s * WAD * WAD / tl.val⟩ := by
        simp only [Rate.try_from_decimal]
        rw [if_pos hfit]
      simp only [exchange_rate, hs, htl]
      rw [if_neg hcond]
      simp only [hdivok, hq]
      rfl
    · intro hbig
      have hq : Rate.try_from_decimal ⟨s * WAD * WAD / tl.val⟩ = .error .mathOverflow := by
        simp only [Rate.try_from_decimal]
        rw [if_neg (by omega)]
      simp only [exchange_rate, hs, htl]
      rw [if_neg hcond]
      simp only [hdivok, hq]

/-- Claim C2 witness: the reserve with mint supply 2,000,000 and total
liquidity 1,000,000 (nonzero cases) yields the computed exchange rate 2.0. -/
theorem exchange_rate_spec_witness :
    exchange_rate wResAcc = .ok ⟨2 * WAD⟩ := by
  have h := ((exchange_rate_spec wResAcc 2000000 ⟨1000000 * WAD⟩ (by decide) (by decide)
    (by decide)).2 (by decide) (by decide)).1 (by decide)
  rw [h]
  decide

/-- Claim C4: for every obligation buffer whose declared entries fit in the
buffer, `obligation_deposit_amount n` fails with `CollateralIndexOutOfBound`
exactly when `n` is at least the deposit count at byte 138, and
`obligation_borrow_amount_wads n` fails with `BorrowIndexOutOfBound` exactly
when `n` is at least the borrow count at byte 139; below the respective count
each succeeds and returns the entry's stored amount. -/
theorem obligation_index_bounds (acc : AccountInfo) (n d b : Nat)
    (hdc : obligation_deposits_count acc = .ok d)
    (hbc : obligation_borrows_count acc = .ok b)
    (hlen : 140 + d * 88 + b * 112 ≤ acc.data.length) :
    (obligation_deposit_amount acc n = .error .collateralIndexOutOfBound ↔ d ≤ n) ∧
    (n < d → obligation_deposit_amount acc n =
      .ok (leNat (bytesAt acc.data (140 + n * 88 + 32) 8))) ∧
    (obligation_borrow_amount_wads acc n = .error .borrowIndexOutOfBound ↔ b ≤ n) ∧
    (n < b → obligation_borrow_amount_wads acc n =
      .ok (Decimal.from_scaled_val
        (leNat (bytesAt acc.data (140 + d * 88 + n * 112 + 32 + 16) 16)))) := by
  refine ⟨?_, ?_, ?_, ?_⟩
  · constructor
    · intro h
      by_contra hn
      have hlt : n < d := by omega
      rw [obligation_deposit_amount_ok acc n d hdc hlt (by omega)] at h
      exact Except.noConfusion h
    · intro hn
      exact obligation_deposit_amount_oob acc n d hdc hn
  · intro hn
    exact obligation_deposit_amount_ok acc n d hdc hn (by omega)
  · constructor
    · intro h
      by_contra hn
      have hlt : n < b := by omega
      rw [obligation_borrow_amount_wads_ok acc n d b hdc hbc hlt (by omega)] at h
      exact Except.noConfusion h
    · intro hn
      exact obligation_borrow_amount_wads_oob acc n d b hdc hbc hn
  · intro hn
    exact obligation_borrow_amount_wads_ok acc n d b hdc hbc hn (by omega)

/-- Claim C4 witness: on a concrete obligation buffer with one deposit (amount
100) and one borrow, index 0 succeeds and indices past the counts fail with
the matching out-of-bound errors. -/
theorem obligation_index_bounds_witness :
    obligation_deposit_amount wObAcc 0 = .ok 100 ∧
    obligation_deposit_amount wObAcc 1 = .error .collateralIndexOutOfBound ∧
    obligation_borrow_amount_wads wObAcc 2 = .error .borrowIndexOutOfBound := by
  refine ⟨?_, ?_, ?_⟩
  · have h := (obligation_index_bounds wObAcc 0 1 1 (by decide) (by decide) (by decide)).2.1
      (by decide)
    rw [h]
    decide
  · exact (obligation_index_bounds wObAcc 1 1 1 (by decide) (by decide) (by decide)).1.mpr
      (by decide)
  · exact (obligation_index_bounds wObAcc 2 1 1 (by decide) (by decide) (by decide)).2.2.1.mpr
      (by decide)

/-- Claim C6: for every obligation buffer with deposit count `d` and borrow
index `n` below the borrow count, `obligation_borrow_amount_wads n` reads its
16 bytes starting at byte offset
`140 + d·OBLIGATION_COLLATERAL_LEN + n·OBLIGATION_LIQUIDITY_LEN + 32 + 16`
(deposit stride 88, borrow stride 112) and interprets them as a little-endian
128-bit integer scaled by 10^18 (the scaled value of the returned Decimal). -/
theorem obligation_borrow_amount_wads_offset (acc : AccountInfo) (n d b : Nat)
    (hdc : obligation_deposits_count acc = .ok d)
    (hbc : obligation_borrows_count acc = .ok b) (hn : n < b)
    (hlen : 140 + d * OBLIGATION_COLLATERAL_LEN + b * OBLIGATION_LIQUIDITY_LEN ≤
      acc.data.length) :
    obligation_borrow_amount_wads acc n =
      .ok (Decimal.from_scaled_val (leNat (bytesAt acc.data
        (140 + d * OBLIGATION_COLLATERAL_LEN + n * OBLIGATION_LIQUIDITY_LEN + PUBKEY_BYTES + 16)
        16))) := by
  simp only [OBLIGATION_COLLATERAL_LEN, OBLIGATION_LIQUIDITY_LEN, PUBKEY_BYTES] at hlen ⊢
  exact obligation_borrow_amount_wads_ok acc n d b hdc hbc hn (by omega)

/-- Claim C6 witness: on the concrete buffer, borrow entry 0 is read at offset
140 + 88 + 48 = 276 and decodes to the stored 5·WAD scaled value. -/
theorem obligation_borrow_amount_wads_offset_witness :
    obligation_borrow_amount_wads wObAcc 0 = .ok (Decimal.from_scaled_val (5 * WAD)) := by
  have h := obligation_borrow_amount_wads_offset wObAcc 0 1 1 (by decide) (by decide)
    (by decide) (by decide)
  rw [h]
  decide

/-- Claim C9: when the deposit count (byte 138) is zero, `obligation_liquidity`
ignores the deposit index entirely (it treats the deposit value as zero) and
never fails with `CollateralIndexOutOfBound`; symmetrically, when the borrow
count (byte 139) is zero it ignores the borrow index, treats the borrow as
decimal zero, and never fails with `BorrowIndexOutOfBound`. -/
theorem obligation_liquidity_zero_counts (acc : AccountInfo) (er : CollateralExchangeRate) :
    (obligation_deposits_count acc = .ok 0 →
      ∀ di1 di2 bi, obligation_liquidity acc er di1 bi = obligation_liquidity acc er di2 bi ∧
        obligation_liquidity acc er di1 bi ≠ .error .collateralIndexOutOfBound) ∧
    (obligation_borrows_count acc = .ok 0 →
      ∀ di bi1 bi2, obligation_liquidity acc er di bi1 = obligation_liquidity acc er di bi2 ∧
        obligation_liquidity acc er di bi1 ≠ .error .borrowIndexOutOfBound) := by
  constructor
  · intro h di1 di2 bi
    have h1 := obligation_liquidity_deposit_zero acc er di1 h
    have h2 := obligation_liquidity_deposit_zero acc er di2 h
    constructor
    · simp only [obligation_liquidity, h1, h2]
    · simp only [obligation_liquidity, h1]
      cases hbr : obligation_liquidity_borrow acc bi with
      | error e =>
        intro hcontra
        have h3 : Except.error (α := Decimal) e = .error .collateralIndexOutOfBound := hcontra
        have h4 := Except.error.inj h3
        rcases obligation_liquidity_borrow_error acc bi e hbr with h5 | h5 | h5 <;>
          (rw [h5] at h4; exact PErr.noConfusion h4)
      | ok borrow =>
        intro hcontra
        have h3 : (Decimal.from_u64 0).try_sub borrow = .error .collateralIndexOutOfBound :=
          hcontra
        have h4 := Decimal.try_sub_error _ _ _ h3
        exact PErr.noConfusion h4
  · intro h di bi1 bi2
    have h1 := obligation_liquidity_borrow_zero acc bi1 h
    have h2 := obligation_liquidity_borrow_zero acc bi2 h
    constructor
    · cases hd : obligation_liquidity_deposit acc er di with
      | error e => simp only [obligation_liquidity, hd]
      | ok dep => simp only [obligation_liquidity, hd, h1, h2]
    · cases hd : obligation_liquidity_deposit acc er di with
      | error e =>
        simp only [obligation_liquidity, hd]
        intro hcontra
        have h3 : Except.error (α := Decimal) e = .error .borrowIndexOutOfBound := hcontra
        have h4 := Except.error.inj h3
        rcases obligation_liquidity_deposit_error acc er di e hd with h5 | h5 | h5 | h5 <;>
          (rw [h5] at h4; exact PErr.noConfusion h4)
      | ok dep =>
        simp only [obligation_liquidity, hd, h1]
        intro hcontra
        have h3 : (Decimal.from_u64 dep).try_sub Decimal.zero = .error .borrowIndexOutOfBound :=
          hcontra
        have h4 := Decimal.try_sub_error _ _ _ h3
        exact PErr.noConfusion h4

/-- Claim C9 witness: on an all-zero obligation buffer (both counts zero),
`obligation_liquidity` gives the same result for two different deposit indices
and does not fail with `CollateralIndexOutOfBound`. -/
theorem obligation_liquidity_zero_counts_witness :
    obligation_liquidity zeroObAcc wEr 5 9 = obligation_liquidity zeroObAcc wEr 123 9 ∧
    obligation_liquidity zeroObAcc wEr 5 9 ≠ .error .collateralIndexOutOfBound :=
  (obligation_liquidity_zero_counts zeroObAcc wEr).1 (by decide) 5 123 9

/-- Claim C3 counterexample: an obligation buffer with one deposit of 0 and
one borrow of 5 (fixed point) under rate 1.0 has converted deposit value 0,
less than the borrow amount; the claim says the call fails with the
`Insolvency` error condition, but `obligation_liquidity` fails with the
fixed-point subtraction-underflow arithmetic error (`mathOverflow`), not with
the `PortAdaptorError::Insolvency` code. -/
theorem obligation_liquidity_error_cex :
    obligation_liquidity_deposit cexObAcc wEr 0 = .ok 0 ∧
    obligation_liquidity_borrow cexObAcc 0 = .ok ⟨5 * WAD⟩ ∧
    ((0 : Nat) * WAD < 5 * WAD) ∧
    obligation_liquidity cexObAcc wEr 0 0 = .error .mathOverflow ∧
    obligation_liquidity cexObAcc wEr 0 0 ≠ .error .insolvency :=
  ⟨by decide, by decide, by decide, by decide, by decide⟩

/-- Claim C3 (amended): for every obligation buffer, exchange rate and index
pair, when the computed deposit value (converted to liquidity units, wad
scaled) is less than the computed borrow amount, `obligation_liquidity` fails
with the fixed-point subtraction-underflow arithmetic error (`mathOverflow`),
not with the `PortAdaptorError::Insolvency` error code. -/
theorem obligation_liquidity_underflow_error (acc : AccountInfo)
    (er : CollateralExchangeRate) (di bi : Nat) (d : Nat) (b : Decimal)
    (hd : obligation_liquidity_deposit acc er di = .ok d)
    (hb : obligation_liquidity_borrow acc bi = .ok b)
    (hlt : d * WAD < b.val) :
    obligation_liquidity acc er di bi = .error .mathOverflow ∧
    obligation_liquidity acc er di bi ≠ .error .insolvency := by
  have hsub : (Decimal.from_u64 d).try_sub b = .error .mathOverflow := by
    simp only [Decimal.try_sub, Decimal.from_u64]
    rw [if_neg (by omega)]
  have hmain : obligation_liquidity acc er di bi = .error .mathOverflow := by
    simp only [obligation_liquidity, hd, hb, hsub]
  refine ⟨hmain, ?_⟩
  rw [hmain]
  intro hcontra
  exact PErr.noConfusion (Except.error.inj hcontra)

/-- Claim C3 witness: the concrete insolvent obligation (deposit value 0,
borrow 5) fails with the arithmetic underflow error. -/
theorem obligation_liquidity_underflow_error_witness :
    obligation_liquidity cexObAcc wEr 0 0 = .error .mathOverflow :=
  (obligation_liquidity_underflow_error cexObAcc wEr 0 0 0 ⟨5 * WAD⟩ (by decide) (by decide)
    (by decide)).1

/-- Claim C1 counterexample: an obligation whose matched borrow is 2^64 (fixed
point) against rate 1.0 and no deposit: the deposit conversion succeeds with
liquidity 0 and the mathematical borrow ceiling (2^64) exceeds it, so the
claim predicts an `Insolvency` failure; `calculate_liquidity` instead fails
with the arithmetic overflow error, because the ceiling does not fit in a u64
— the stated iff is false at this input. -/
theorem calculate_liquidity_insolvency_iff_cex :
    wEr.collateral_to_liquidity (matchedDepositAmount cexObOverflow wPk) = .ok 0 ∧
    0 < ceilingUnits (matchedBorrowWads cexObOverflow wPk) ∧
    calculate_liquidity cexObOverflow wPk wEr = .error .mathOverflow ∧
    calculate_liquidity cexObOverflow wPk wEr ≠ .error .insolvency :=
  ⟨by decide, by decide, by decide, by decide⟩

/-- Claim C1 (amended): given that the matched deposit amount (integer 0 when
no entry matches) converts through the exchange rate to liquidity `L`,
`calculate_liquidity` fails with `Insolvency` iff the matched borrow amount
(fixed-point zero when no entry matches) has a ceiling representable in a u64
that exceeds `L`; when the representable ceiling is at most `L` the call
succeeds and returns exactly `L` minus the ceiling (and every success is of
that form); when the ceiling overflows the u64 range, the call fails with that
arithmetic error instead of `Insolvency`. -/
theorem calculate_liquidity_insolvency_iff (ob : Obligation) (pk : Pubkey)
    (er : CollateralExchangeRate) (L : Nat)
    (hconv : er.collateral_to_liquidity (matchedDepositAmount ob pk) = .ok L) :
    (calculate_liquidity ob pk er = .error .insolvency ↔
      ∃ c, (matchedBorrowWads ob pk).try_ceil_u64 = .ok c ∧ L < c) ∧
    (∀ c, (matchedBorrowWads ob pk).try_ceil_u64 = .ok c → c ≤ L →
      calculate_liquidity ob pk er = .ok (L - c)) ∧
    (∀ r, calculate_liquidity ob pk er = .ok r →
      ∃ c, (matchedBorrowWads ob pk).try_ceil_u64 = .ok c ∧ c ≤ L ∧ r = L - c) ∧
    (∀ e, (matchedBorrowWads ob pk).try_ceil_u64 = .error e →
      calculate_liquidity ob pk er = .error e ∧ e ≠ .insolvency) := by
  unfold calculate_liquidity
  cases hc : (matchedBorrowWads ob pk).try_ceil_u64 with
  | error e =>
    have hcore : calculate_liquidity_core er (matchedDepositAmount ob pk)
        (matchedBorrowWads ob pk) = .error e := by
      simp only [calculate_liquidity_core, hconv, hc]
    refine ⟨?_, ?_, ?_, ?_⟩
    · rw [hcore]
      constructor
      · intro h
        have hmo := Decimal.try_ceil_u64_error _ _ hc
        have hei := Except.error.inj h
        rw [hei] at hmo
        exact PErr.noConfusion hmo
      · intro h
        obtain ⟨c, hcc, _⟩ := h
        exact Except.noConfusion hcc
    · intro c hcc
      exact Except.noConfusion hcc
    · intro r hr
      rw [hcore] at hr
      exact Except.noConfusion hr
    · intro e1 he1
      have heq : e = e1 := Except.error.inj he1
      subst heq
      refine ⟨hcore, ?_⟩
      have hmo := Decimal.try_ceil_u64_error _ _ hc
      rw [hmo]
      intro hcontra
      exact PErr.noConfusion hcontra
  | ok c =>
    by_cases hle : c ≤ L
    · have hcore : calculate_liquidity_core er (matchedDepositAmount ob pk)
          (matchedBorrowWads ob pk) = .ok (L - c) := by
        simp only [calculate_liquidity_core, hconv, hc, u64_checked_sub]
        rw [if_pos hle]
      refine ⟨?_, ?_, ?_, ?_⟩
      · rw [hcore]
        constructor
        · intro h
          exact Except.noConfusion h
        · intro h
          obtain ⟨c2, hc2, hlt⟩ := h
          have heq := Except.ok.inj hc2
          exact absurd hlt (by omega)
      · intro c2 hc2 hle2
        have heq := Except.ok.inj hc2
        rw [hcore, ← heq]
      · intro r hr
        rw [hcore] at hr
        exact ⟨c, rfl, hle, (Except.ok.inj hr).symm⟩
      · intro e1 he1
        exact Except.noConfusion he1
    · have hcore : calculate_liquidity_core er (matchedDepositAmount ob pk)
          (matchedBorrowWads ob pk) = .error .insolvency := by
        simp only [calculate_liquidity_core, hconv, hc, u64_checked_sub]
        rw [if_neg hle]
      refine ⟨?_, ?_, ?_, ?_⟩
      · rw [hcore]
        constructor
        · intro _
          exact ⟨c, rfl, by omega⟩
        · intro _
          rfl
      · intro c2 hc2 hle2
        have heq := Except.ok.inj hc2
        exact absurd (show c ≤ L by omega) hle
      · intro r hr
        rw [hcore] at hr
        exact Except.noConfusion hr
      · intro e1 he1
        exact Except.noConfusion he1

/-- Claim C1 witness: a deposit of 100 collateral at rate 1.0 with a borrow of
50.4 (fixed point, ceiling 51) succeeds with net liquidity 49. -/
theorem calculate_liquidity_insolvency_iff_witness :
    calculate_liquidity wObA wPk wEr = .ok 49 := by
  have h := (calculate_liquidity_insolvency_iff wObA wPk wEr 100 (by decide)).2.1 51 (by decide)
    (by decide)
  simpa using h

/-- Claim C8: over inputs where the call succeeds, `calculate_liquidity` with
a fixed exchange rate is monotone: non-increasing as the matched borrow amount
increases (deposit fixed) and non-decreasing as the matched deposit amount
increases (borrow fixed) — stated jointly: a deposit at least as large and a
borrow at most as large yield a result at least as large. -/
theorem calculate_liquidity_monotone (er : CollateralExchangeRate) (pk : Pubkey)
    (ob1 ob2 : Obligation) (r1 r2 : Nat)
    (hd : matchedDepositAmount ob1 pk ≤ matchedDepositAmount ob2 pk)
    (hb : (matchedBorrowWads ob2 pk).val ≤ (matchedBorrowWads ob1 pk).val)
    (h1 : calculate_liquidity ob1 pk er = .ok r1)
    (h2 : calculate_liquidity ob2 pk er = .ok r2) :
    r1 ≤ r2 := by
  unfold calculate_liquidity at h1 h2
  obtain ⟨L1, c1, hconv1, hceil1, hle1, hr1⟩ := (calculate_liquidity_core_ok_iff _ _ _ _).1 h1
  obtain ⟨L2, c2, hconv2, hceil2, hle2, hr2⟩ := (calculate_liquidity_core_ok_iff _ _ _ _).1 h2
  obtain ⟨_, _, _, hL1⟩ := (collateral_to_liquidity_ok_iff _ _ _).1 hconv1
  obtain ⟨_, _, _, hL2⟩ := (collateral_to_liquidity_ok_iff _ _ _).1 hconv2
  obtain ⟨_, _, hc1⟩ := (try_ceil_u64_ok_iff _ _).1 hceil1
  obtain ⟨_, _, hc2⟩ := (try_ceil_u64_ok_iff _ _).1 hceil2
  have hLle : L1 ≤ L2 := by
    rw [hL1, hL2]
    exact Nat.div_le_div_right (Nat.div_le_div_right
      (Nat.mul_le_mul_right WAD (Nat.mul_le_mul_right WAD hd)))
  have hcle : c2 ≤ c1 := by
    rw [hc1, hc2]
    exact Nat.div_le_div_right (by omega)
  omega

/-- Claim C8 witness: raising the deposit from 100 to 200 and lowering the
borrow from 50.4 to 50 raises the result from 49 to 150. -/
theorem calculate_liquidity_monotone_witness :
    calculate_liquidity wObA wPk wEr = .ok 49 ∧
    calculate_liquidity wObB wPk wEr = .ok 150 ∧ (49 : Nat) ≤ 150 :=
  ⟨by decide, by decide,
    calculate_liquidity_monotone wEr wPk wObA wObB 49 150 (by decide) (by decide) (by decide)
      (by decide)⟩

/-- Claim C10: when several borrow entries (or several deposit entries) match
the queried reserve identifier, `calculate_liquidity` uses only the first
matching entry in array order for each side — the result is a function of the
first matched deposit amount and first matched borrow amount only, so all
later matching entries (in `dpost`, `bpost`) are ignored rather than summed. -/
theorem calculate_liquidity_first_match (er : CollateralExchangeRate) (pk : Pubkey)
    (dpre dpost : List ObligationCollateral) (dc : ObligationCollateral)
    (bpre bpost : List ObligationLiquidity) (bl : ObligationLiquidity)
    (hdpre : ∀ x ∈ dpre, x.deposit_reserve ≠ pk) (hdc : dc.deposit_reserve = pk)
    (hbpre : ∀ x ∈ bpre, x.borrow_reserve ≠ pk) (hbl : bl.borrow_reserve = pk) :
    calculate_liquidity ⟨dpre ++ dc :: dpost, bpre ++ bl :: bpost⟩ pk er =
      calculate_liquidity_core er dc.deposited_amount bl.borrowed_amount_wads := by
  have hdep : matchedDepositAmount ⟨dpre ++ dc :: dpost, bpre ++ bl :: bpost⟩ pk =
      dc.deposited_amount := by
    have hfind := findSome?_first
      (fun b : ObligationCollateral =>
        if b.deposit_reserve = pk then some b.deposited_amount else none)
      dpre dc dpost dc.deposited_amount
      (fun a ha => by simp only [if_neg (hdpre a ha)]) (by simp only [if_pos hdc])
    show ((dpre ++ dc :: dpost).findSome? fun b =>
      if b.deposit_reserve = pk then some b.deposited_amount else none).getD 0 =
      dc.deposited_amount
    rw [hfind]
    rfl
  have hbor : matchedBorrowWads ⟨dpre ++ dc :: dpost, bpre ++ bl :: bpost⟩ pk =
      bl.borrowed_amount_wads := by
    have hfind := findSome?_first
      (fun b : ObligationLiquidity =>
        if b.borrow_reserve = pk then some b.borrowed_amount_wads else none)
      bpre bl bpost bl.borrowed_amount_wads
      (fun a ha => by simp only [if_neg (hbpre a ha)]) (by simp only [if_pos hbl])
    show ((bpre ++ bl :: bpost).findSome? fun b =>
      if b.borrow_reserve = pk then some b.borrowed_amount_wads else none).getD Decimal.zero =
      bl.borrowed_amount_wads
    rw [hfind]
    rfl
  unfold calculate_liquidity
  rw [hdep, hbor]

def wDepC : ObligationCollateral := ⟨7, 100⟩

def wDepDup : ObligationCollateral := ⟨7, 999⟩

def wBorNon : ObligationLiquidity := ⟨3, ⟨WAD⟩⟩

def wBorC : ObligationLiquidity := ⟨7, ⟨504 * 10 ^ 17⟩⟩

def wBorDup : ObligationLiquidity := ⟨7, ⟨1000 * WAD⟩⟩

/-- Claim C10 witness: with a second matching deposit entry (amount 999) and a
second matching borrow entry (1000 fixed point) placed after the first
matches, `calculate_liquidity` still computes from the first matched amounts
(100 and 50.4) only. -/
theorem calculate_liquidity_first_match_witness :
    calculate_liquidity ⟨[wDepC, wDepDup], [wBorNon, wBorC, wBorDup]⟩ 7 wEr =
      calculate_liquidity_core wEr 100 ⟨504 * 10 ^ 17⟩ := by
  have h := calculate_liquidity_first_match wEr 7 [] [wDepDup] wDepC [wBorNon] [wBorDup] wBorC
    (by decide) (by decide) (by decide) (by decide)
  exact h

end PortAdaptor
